import Mathlib

/-!
Shallow embedding of eth/tracers/native/prestate.go (the prestateTracer
execution-trace observer) and proofs about its behavior.

Conventions of the embedding:
- 256-bit stack words are modelled as Nat (the Go code only ever consumes
  their low 64 bits, via uint256.Int.Uint64 followed by an int64 cast).
- The stack is a List Nat ordered bottom-to-top, matching Go's
  scope.StackData() where stackData[len-1] is the top of the stack.
- Linear memory is a List Nat of byte values.
- Go errors are modelled as Option String (nil = none); fallible calls
  return Except String.
- Struct field and function names follow the Go source.
-/

set_option autoImplicit false

namespace PrestateTracer

abbrev Err := String

abbrev Address := Nat

/-- Execution scope handed to the opcode hook: stack contents (bottom to
top, top of stack is the last element, as in Go scope.StackData API),
memory contents, and the current executing address. -/
structure OpContext where
  stackData : List Nat
  memoryData : List Nat
  address : Address
  deriving DecidableEq

/-- One captured log-emission occurrence (Go struct event). -/
structure event where
  caller : Address
  topics0 : Nat
  data : List String
  deriving DecidableEq

/-- The tracer state (Go struct prestateTracer: pre, isFail, reason). -/
structure prestateTracer where
  pre : List event
  isFail : Bool
  reason : Option Err
  deriving DecidableEq

/-- Lowercase hex digit character, as indexed from Go encoding/hex
hextable = "0123456789abcdef". -/
def hexDigitChar (n : Nat) : Char :=
  if n < 10 then Char.ofNat (48 + n) else Char.ofNat (87 + n)

/-- Go hex.EncodeToString: each byte becomes two lowercase hex digits,
high nibble first. -/
def hexEncodeToString (bs : List Nat) : String :=
  String.mk ((bs.map fun b => [hexDigitChar (b / 16), hexDigitChar (b % 16)]).flatten)

/-- Go int64(x.Uint64()): take the low 64 bits of a 256-bit word and
reinterpret them as a signed two's-complement 64-bit integer. -/
def toInt64 (x : Nat) : Int :=
  if x % 2 ^ 64 < 2 ^ 63 then ((x % 2 ^ 64 : Nat) : Int)
  else ((x % 2 ^ 64 : Nat) : Int) - 2 ^ 64

/-- Modelled from the spec: GetMemoryCopyPadded lives in
eth/tracers/internal, which is not part of this repository's sources;
spec section 4.2 (Memory Slice Extractor) describes it: the result is
exactly size bytes, positions inside the buffer are copied verbatim,
positions beyond the buffer's length are zero-filled, and a negative
offset or size always fails with a range error. -/
def GetMemoryCopyPadded (m : List Nat) (offset size : Int) :
    Except Err (List Nat) :=
  if offset < 0 ∨ size < 0 then
    Except.error "offset or size must not be negative"
  else
    Except.ok ((List.range size.toNat).map fun i => m.getD (offset.toNat + i) 0)

/-- The hex-chunking loop of OnOpcode: for i := 0; i < len(data); i += 32,
take data[i : min(i+32, len)] and emit "0x" ++ hex encoding of the slice. -/
def chunkLoop (l : List Nat) : List String :=
  if h : l = [] then []
  else ("0x" ++ hexEncodeToString (l.take 32)) :: chunkLoop (l.drop 32)
termination_by l.length
decreasing_by
  simp only [List.length_drop]
  have hl : 0 < l.length := List.length_pos.mpr h
  omega

/-- Go prestateTracer.lookupLog: append one event to pre. -/
def lookupLog (t : prestateTracer) (addr : Address) (data : List String)
    (topics0 : Nat) : prestateTracer :=
  { t with pre := t.pre ++ [{ caller := addr, topics0 := topics0, data := data }] }

/-- The log-family branch of OnOpcode: read offset, size, topics0 from the
stack (indices stackLen-1, stackLen-2, stackLen-3), extract padded memory,
hex-chunk it and append the event; on extraction error return unchanged. -/
def logBranch (t : prestateTracer) (scope : OpContext) : prestateTracer :=
  let stackData := scope.stackData
  let stackLen := stackData.length
  let caller := scope.address
  let offset := stackData.getD (stackLen - 1) 0
  let size := stackData.getD (stackLen - 2) 0
  let topics0 := stackData.getD (stackLen - 3) 0
  match GetMemoryCopyPadded scope.memoryData (toInt64 offset) (toInt64 size) with
  | Except.error _ => t
  | Except.ok data => lookupLog t caller (chunkLoop data) topics0

/-- Go prestateTracer.OnOpcode: fault opcode 0xfd sets isFail and returns;
opcodes in (0xa0, 0xa4] run the log-family branch; all others no-op.
The unused hook arguments (pc, gas, cost, rData, depth, err) are kept. -/
def OnOpcode (t : prestateTracer) (pc : Nat) (opcode : Nat) (gas cost : Nat)
    (scope : OpContext) (rData : List Nat) (depth : Int) (e : Option Err) :
    prestateTracer :=
  if opcode = 0xfd then
    { t with isFail := true }
  else if 0xa0 < opcode ∧ opcode ≤ 0xa4 then
    logBranch t scope
  else
    t

/-- The report struct serialized by GetResult (event, isFail, reason). -/
structure reportShape where
  event : List event
  isFail : Bool
  reason : Option Err
  deriving DecidableEq

abbrev RawMessage := String

/-- Go prestateTracer.GetResult, with json.Marshal abstracted as a given
serialization primitive: on marshal error return (nil, err); on success
return the serialized report together with t.reason as the error result. -/
def GetResult (t : prestateTracer)
    (marshal : reportShape → Except Err RawMessage) :
    Option RawMessage × Option Err :=
  match marshal { event := t.pre, isFail := t.isFail, reason := t.reason } with
  | Except.error e => (none, some e)
  | Except.ok res => (some res, t.reason)

/-- Go prestateTracer.Stop: record the reason and set isFail. -/
def Stop (t : prestateTracer) (e : Option Err) : prestateTracer :=
  { t with reason := e, isFail := true }

/-- One operation of a trace session: an opcode observation or a call of
the Stop entry point. -/
inductive TraceOp where
  | observe (pc opcode gas cost : Nat) (scope : OpContext) (rData : List Nat)
      (depth : Int) (e : Option Err)
  | stop (e : Option Err)
  deriving DecidableEq

/-- Apply one session operation to the tracer state. -/
def applyOp (t : prestateTracer) : TraceOp → prestateTracer
  | TraceOp.observe pc opcode gas cost scope rData depth e =>
      OnOpcode t pc opcode gas cost scope rData depth e
  | TraceOp.stop e => Stop t e

/-- Run a sequence of session operations from a starting state. -/
def run (t : prestateTracer) (ops : List TraceOp) : prestateTracer :=
  List.foldl applyOp t ops

/-- Stack slot counted from the top: fromTop scope 1 is the top of the
stack, fromTop scope 2 the second-from-top slot, and so on. -/
def fromTop (scope : OpContext) (k : Nat) : Nat :=
  scope.stackData.getD (scope.stackData.length - k) 0

/-! Unfolding lemmas for the embedded operations. -/

theorem chunkLoop_nil : chunkLoop [] = [] := by
  unfold chunkLoop
  simp

theorem chunkLoop_cons (l : List Nat) (h : l ≠ []) :
    chunkLoop l = ("0x" ++ hexEncodeToString (l.take 32)) :: chunkLoop (l.drop 32) := by
  conv_lhs => rw [chunkLoop]
  rw [dif_neg h]

theorem chunkLoop_length (l : List Nat) :
    (chunkLoop l).length = (l.length + 31) / 32 := by
  by_cases h : l = []
  · subst h
    rw [chunkLoop_nil]
    rfl
  · have hrec := chunkLoop_length (l.drop 32)
    rw [chunkLoop_cons l h]
    have hl : 0 < l.length := List.length_pos.mpr h
    simp only [List.length_cons, hrec, List.length_drop]
    omega
termination_by l.length
decreasing_by
  simp only [List.length_drop]
  have hl : 0 < l.length := List.length_pos.mpr h
  omega

theorem chunkLoop_getD (l : List Nat) (i : Nat) (hi : i < (chunkLoop l).length) :
    (chunkLoop l).getD i "" = "0x" ++ hexEncodeToString ((l.drop (32 * i)).take 32) := by
  by_cases h : l = []
  · subst h
    rw [chunkLoop_nil] at hi
    exact absurd hi (by simp)
  · rw [chunkLoop_cons l h] at hi ⊢
    cases i with
    | zero => simp
    | succ j =>
        simp only [List.getD_cons_succ]
        have hj : j < (chunkLoop (l.drop 32)).length := by
          simpa using Nat.lt_of_succ_lt_succ (by simpa using hi)
        rw [chunkLoop_getD (l.drop 32) j hj, List.drop_drop]
        have harith : 32 + 32 * j = 32 * (j + 1) := by ring
        rw [harith]
termination_by l.length
decreasing_by
  simp only [List.length_drop]
  have hl : 0 < l.length := List.length_pos.mpr h
  omega

theorem logBranch_def (t : prestateTracer) (scope : OpContext) :
    logBranch t scope =
      match GetMemoryCopyPadded scope.memoryData (toInt64 (fromTop scope 1))
          (toInt64 (fromTop scope 2)) with
      | Except.error _ => t
      | Except.ok data => lookupLog t scope.address (chunkLoop data) (fromTop scope 3) :=
  rfl

theorem logBranch_error (t : prestateTracer) (scope : OpContext) (er : Err)
    (hx : GetMemoryCopyPadded scope.memoryData (toInt64 (fromTop scope 1))
        (toInt64 (fromTop scope 2)) = Except.error er) :
    logBranch t scope = t := by
  rw [logBranch_def, hx]

theorem logBranch_ok (t : prestateTracer) (scope : OpContext) (d : List Nat)
    (hx : GetMemoryCopyPadded scope.memoryData (toInt64 (fromTop scope 1))
        (toInt64 (fromTop scope 2)) = Except.ok d) :
    logBranch t scope = lookupLog t scope.address (chunkLoop d) (fromTop scope 3) := by
  rw [logBranch_def, hx]

theorem OnOpcode_fault (t : prestateTracer) (pc gas cost : Nat) (scope : OpContext)
    (rData : List Nat) (depth : Int) (e : Option Err) :
    OnOpcode t pc 0xfd gas cost scope rData depth e = { t with isFail := true } := by
  unfold OnOpcode
  rw [if_pos rfl]

theorem OnOpcode_logfam (t : prestateTracer) (pc opc gas cost : Nat) (scope : OpContext)
    (rData : List Nat) (depth : Int) (e : Option Err)
    (h1 : 0xa0 < opc) (h2 : opc ≤ 0xa4) :
    OnOpcode t pc opc gas cost scope rData depth e = logBranch t scope := by
  unfold OnOpcode
  rw [if_neg (by omega), if_pos ⟨h1, h2⟩]

theorem OnOpcode_other (t : prestateTracer) (pc opc gas cost : Nat) (scope : OpContext)
    (rData : List Nat) (depth : Int) (e : Option Err)
    (h1 : opc ≠ 0xfd) (h2 : ¬(0xa0 < opc ∧ opc ≤ 0xa4)) :
    OnOpcode t pc opc gas cost scope rData depth e = t := by
  unfold OnOpcode
  rw [if_neg h1, if_neg h2]

theorem lookupLog_isFail (t : prestateTracer) (addr : Address) (data : List String)
    (topics0 : Nat) : (lookupLog t addr data topics0).isFail = t.isFail :=
  rfl

theorem lookupLog_reason (t : prestateTracer) (addr : Address) (data : List String)
    (topics0 : Nat) : (lookupLog t addr data topics0).reason = t.reason :=
  rfl

theorem logBranch_isFail (t : prestateTracer) (scope : OpContext) :
    (logBranch t scope).isFail = t.isFail := by
  rw [logBranch_def]
  cases GetMemoryCopyPadded scope.memoryData (toInt64 (fromTop scope 1))
      (toInt64 (fromTop scope 2)) with
  | error er => rfl
  | ok d => rfl

theorem logBranch_reason (t : prestateTracer) (scope : OpContext) :
    (logBranch t scope).reason = t.reason := by
  rw [logBranch_def]
  cases GetMemoryCopyPadded scope.memoryData (toInt64 (fromTop scope 1))
      (toInt64 (fromTop scope 2)) with
  | error er => rfl
  | ok d => rfl

theorem OnOpcode_reason (t : prestateTracer) (pc opc gas cost : Nat) (scope : OpContext)
    (rData : List Nat) (depth : Int) (e : Option Err) :
    (OnOpcode t pc opc gas cost scope rData depth e).reason = t.reason := by
  unfold OnOpcode
  split
  · rfl
  · split
    · exact logBranch_reason t scope
    · rfl

theorem OnOpcode_isFail_mono (t : prestateTracer) (pc opc gas cost : Nat)
    (scope : OpContext) (rData : List Nat) (depth : Int) (e : Option Err)
    (h : t.isFail = true) :
    (OnOpcode t pc opc gas cost scope rData depth e).isFail = true := by
  unfold OnOpcode
  split
  · rfl
  · split
    · rw [logBranch_isFail t scope]
      exact h
    · exact h

theorem applyOp_isFail_mono (t : prestateTracer) (op : TraceOp)
    (h : t.isFail = true) : (applyOp t op).isFail = true := by
  cases op with
  | observe pc opcode gas cost scope rData depth e =>
      exact OnOpcode_isFail_mono t pc opcode gas cost scope rData depth e h
  | stop e => rfl

theorem run_isFail_mono (t : prestateTracer) (ops : List TraceOp)
    (h : t.isFail = true) : (run t ops).isFail = true := by
  induction ops generalizing t with
  | nil => exact h
  | cons op rest ih => exact ih (applyOp t op) (applyOp_isFail_mono t op h)

theorem toInt64_low64 (x : Nat) : toInt64 x = toInt64 (x % 2 ^ 64) := by
  unfold toInt64
  rw [Nat.mod_mod_of_dvd x (dvd_refl (2 ^ 64))]

theorem toInt64_lower (x : Nat) : -(2 : Int) ^ 63 ≤ toInt64 x := by
  unfold toInt64
  have hm : x % 2 ^ 64 < 2 ^ 64 := Nat.mod_lt x (by norm_num)
  split
  · omega
  · omega

theorem toInt64_upper (x : Nat) : toInt64 x < 2 ^ 63 := by
  unfold toInt64
  have hm : x % 2 ^ 64 < 2 ^ 64 := Nat.mod_lt x (by norm_num)
  split
  · omega
  · omega

theorem toInt64_neg_of_bit63 (x : Nat) (h : 2 ^ 63 ≤ x % 2 ^ 64) : toInt64 x < 0 := by
  unfold toInt64
  rw [if_neg (by omega)]
  have hm : x % 2 ^ 64 < 2 ^ 64 := Nat.mod_lt x (by norm_num)
  push_cast
  omega

theorem GetMemoryCopyPadded_neg (m : List Nat) (offset size : Int)
    (h : offset < 0 ∨ size < 0) :
    GetMemoryCopyPadded m offset size =
      Except.error "offset or size must not be negative" := by
  unfold GetMemoryCopyPadded
  rw [if_pos h]

theorem range_map_getD (f : Nat → Nat) (n i : Nat) (hi : i < n) :
    ((List.range n).map f).getD i 0 = f i := by
  rw [List.getD_eq_getElem?_getD, List.getElem?_map, List.getElem?_range hi]
  rfl

/-- True exactly on the forced-stop operation of a session. -/
def TraceOp.isStop : TraceOp → Bool
  | TraceOp.stop _ => true
  | TraceOp.observe _ _ _ _ _ _ _ _ => false

/-! Concrete fixtures used by counterexamples and witnesses. -/

/-- A scope whose stack, bottom to top, is 9, 7, 2, 0 (top of stack 0)
and whose memory holds the three bytes 1, 2, 3. -/
def scope0 : OpContext :=
  { stackData := [9, 7, 2, 0], memoryData := [1, 2, 3], address := 0xAA }

/-- A scope whose top-of-stack word has bit 63 set (so the int64 cast of
its low 64 bits is negative). -/
def scopeNeg : OpContext :=
  { stackData := [7, 5, 2 ^ 63], memoryData := [], address := 0 }

/-- A scope requesting a 33-byte extraction (offset 0, size 33, topic 7)
from an empty memory. -/
def scope33 : OpContext :=
  { stackData := [7, 33, 0], memoryData := [], address := 5 }

/-- The empty initial tracer state. -/
def t0 : prestateTracer := { pre := [], isFail := false, reason := none }

/-- A tracer state that has already recorded a fault. -/
def tFail : prestateTracer := { pre := [], isFail := true, reason := none }

/-! Claim theorems. -/

/-- C1 counterexample: on a concrete log-family instruction with stack
(bottom to top) 9, 7, 2, 0, the captured event's topic is 7, the
third-from-top slot, not the fourth-from-top slot (which holds 9) as the
claim states; and the captured data is the two bytes at memory offset 0,
showing that offset was read from the top slot (value 0) and size from the
second-from-top slot (value 2), not from the second and third slots. -/
theorem C1_counterexample :
    ((OnOpcode t0 0 0xa1 0 0 scope0 [] 0 none).pre.getD 0
        { caller := 0, topics0 := 0, data := [] }).topics0 ≠
      scope0.stackData.getD (scope0.stackData.length - 4) 0 ∧
    ((OnOpcode t0 0 0xa1 0 0 scope0 [] 0 none).pre.getD 0
        { caller := 0, topics0 := 0, data := [] }).data = ["0x0102"] := by
  constructor
  · decide
  · have hd : ((OnOpcode t0 0 0xa1 0 0 scope0 [] 0 none).pre.getD 0
        { caller := 0, topics0 := 0, data := [] }).data = chunkLoop [1, 2] := rfl
    rw [hd, chunkLoop_cons [1, 2] (by decide),
      show ([1, 2] : List Nat).drop 32 = [] from rfl, chunkLoop_nil]
    rfl

/-- C1 (amended): for every observed log-family instruction whose memory
extraction succeeds, the observer reads its operands at these stack
positions, counted from the top: offset from the top slot, size from the
second-from-top slot, topic from the third-from-top slot; the resulting
state appends exactly one event built from the current address, the
third-from-top topic, and the hex chunking of the bytes extracted at
(offset = top slot, size = second-from-top slot). -/
theorem C1_operand_positions (t : prestateTracer) (pc opc gas cost : Nat)
    (scope : OpContext) (rData : List Nat) (depth : Int) (e : Option Err)
    (h1 : 0xa0 < opc) (h2 : opc ≤ 0xa4) (d : List Nat)
    (hx : GetMemoryCopyPadded scope.memoryData (toInt64 (fromTop scope 1))
        (toInt64 (fromTop scope 2)) = Except.ok d) :
    OnOpcode t pc opc gas cost scope rData depth e =
      lookupLog t scope.address (chunkLoop d) (fromTop scope 3) := by
  rw [OnOpcode_logfam t pc opc gas cost scope rData depth e h1 h2]
  exact logBranch_ok t scope d hx

/-- C1 witness: the amended operand positions evaluated on the concrete
scope0 fixture. -/
theorem C1_operand_positions_witness :
    OnOpcode t0 0 0xa1 0 0 scope0 [] 0 none =
      lookupLog t0 scope0.address (chunkLoop [1, 2]) (fromTop scope0 3) :=
  C1_operand_positions t0 0 0xa1 0 0 scope0 [] 0 none (by decide) (by decide)
    [1, 2] rfl

/-- C2 counterexample: opcode 0xfe lies in the contiguous 4-wide range
immediately above the fault opcode 0xfd, so under the claim it would be a
log-emission instruction; the code treats it as a no-op (the state is
returned unchanged, no event appended), whereas opcode 0xa1, which does
not lie above the fault opcode, is the one that appends an event. -/
theorem C2_counterexample :
    (0xfd < 0xfe ∧ 0xfe ≤ 0xfd + 4) ∧
    OnOpcode t0 0 0xfe 0 0 scope0 [] 0 none = t0 ∧
    ¬ 0xfd < 0xa1 ∧
    (OnOpcode t0 0 0xa1 0 0 scope0 [] 0 none).pre.length = t0.pre.length + 1 :=
  ⟨by decide, rfl, by decide, rfl⟩

/-- C2 (amended): the observer classifies opcodes into exactly one fault
opcode, 0xfd, on which it sets failed and returns with no further
processing; the contiguous 4-wide log-emission range 0xa1 to 0xa4, which
sits immediately above 0xa0 and not above the fault opcode; and every
other opcode, which leaves the trace state unchanged. -/
theorem C2_opcode_classification (t : prestateTracer) (pc opc gas cost : Nat)
    (scope : OpContext) (rData : List Nat) (depth : Int) (e : Option Err) :
    (opc = 0xfd →
      OnOpcode t pc opc gas cost scope rData depth e = { t with isFail := true }) ∧
    (0xa0 < opc → opc ≤ 0xa4 →
      OnOpcode t pc opc gas cost scope rData depth e = logBranch t scope) ∧
    (opc ≠ 0xfd → ¬(0xa0 < opc ∧ opc ≤ 0xa4) →
      OnOpcode t pc opc gas cost scope rData depth e = t) := by
  refine ⟨?_, ?_, ?_⟩
  · intro h
    subst h
    exact OnOpcode_fault t pc gas cost scope rData depth e
  · intro h1 h2
    exact OnOpcode_logfam t pc opc gas cost scope rData depth e h1 h2
  · intro h1 h2
    exact OnOpcode_other t pc opc gas cost scope rData depth e h1 h2

/-- C2 witness: the fault branch of the classification evaluated on the
concrete fixture: observing opcode 0xfd sets isFail and nothing else. -/
theorem C2_opcode_classification_witness :
    OnOpcode t0 0 0xfd 0 0 scope0 [] 0 none = { t0 with isFail := true } :=
  (C2_opcode_classification t0 0 0xfd 0 0 scope0 [] 0 none).1 rfl

/-- C5: GetResult has a dual-signal contract: a serialization error yields
a null report together with that error; on serialization success it
returns the serialized report together with the recorded stop reason as
the error result (none when no forced stop occurred), so a non-null
report can come with a non-null error, as the third conjunct shows on a
concrete stopped state. -/
theorem C5_getResult_dual_signal (t : prestateTracer)
    (marshal : reportShape → Except Err RawMessage) :
    (∀ e, marshal { event := t.pre, isFail := t.isFail, reason := t.reason } =
        Except.error e → GetResult t marshal = (none, some e)) ∧
    (∀ r, marshal { event := t.pre, isFail := t.isFail, reason := t.reason } =
        Except.ok r → GetResult t marshal = (some r, t.reason)) ∧
    GetResult { pre := [], isFail := true, reason := some "timeout" }
        (fun _ => Except.ok "report") = (some "report", some "timeout") := by
  refine ⟨?_, ?_, rfl⟩
  · intro e he
    unfold GetResult
    rw [he]
  · intro r hr
    unfold GetResult
    rw [hr]

/-- C5 witness: the serialization-failure branch evaluated on concrete
input: a failing marshal yields a null report and the marshal error. -/
theorem C5_getResult_dual_signal_witness :
    GetResult t0 (fun _ => Except.error "marshal failed") =
      (none, some "marshal failed") :=
  (C5_getResult_dual_signal t0 (fun _ => Except.error "marshal failed")).1
    "marshal failed" rfl

/-- C6: when the memory extraction of an observed log-family instruction
fails, the observer returns the trace state completely unchanged: no
event is appended and neither isFail nor reason moves, and no error
leaves the hook. -/
theorem C6_extraction_failure_local (t : prestateTracer) (pc opc gas cost : Nat)
    (scope : OpContext) (rData : List Nat) (depth : Int) (e : Option Err)
    (h1 : 0xa0 < opc) (h2 : opc ≤ 0xa4) (er : Err)
    (hx : GetMemoryCopyPadded scope.memoryData (toInt64 (fromTop scope 1))
        (toInt64 (fromTop scope 2)) = Except.error er) :
    OnOpcode t pc opc gas cost scope rData depth e = t := by
  rw [OnOpcode_logfam t pc opc gas cost scope rData depth e h1 h2]
  exact logBranch_error t scope er hx

/-- C6 witness: a concrete failing extraction (top-of-stack offset with
bit 63 set) leaves the concrete initial state unchanged. -/
theorem C6_extraction_failure_local_witness :
    OnOpcode t0 0 0xa2 0 0 scopeNeg [] 0 none = t0 :=
  C6_extraction_failure_local t0 0 0xa2 0 0 scopeNeg [] 0 none (by decide)
    (by decide) "offset or size must not be negative" rfl

/-- C8: calling Stop with reason a and then with reason b leaves the
recorded reason equal to b and isFail true (last writer wins), and every
single Stop call sets isFail true and records its reason, whatever the
prior state was. -/
theorem C8_stop_last_writer_wins (t : prestateTracer) (a b : Option Err) :
    ((Stop (Stop t a) b).reason = b ∧ (Stop (Stop t a) b).isFail = true) ∧
    ∀ s : prestateTracer, ∀ e : Option Err,
      (Stop s e).isFail = true ∧ (Stop s e).reason = e :=
  ⟨⟨rfl, rfl⟩, fun _ _ => ⟨rfl, rfl⟩⟩

/-- C9 counterexample: after a forced stop records the non-null reason A,
a second Stop call changes the recorded reason, so a non-null stop reason
is not immutable for the remainder of the session. -/
theorem C9_counterexample :
    (Stop t0 (some "A")).reason = some "A" ∧
    (Stop (Stop t0 (some "A")) (some "B")).reason ≠ some "A" :=
  ⟨rfl, by decide⟩

/-- C9 (amended): once stop reason has been set by a forced stop, no
subsequent observe call changes it (any stop-free suffix of the session
preserves it); only a further Stop call can change it, overwriting it
with the new reason. -/
theorem C9_reason_immutable_under_observe (t : prestateTracer)
    (ops : List TraceOp) (hops : ∀ op ∈ ops, op.isStop = false) :
    (run t ops).reason = t.reason ∧
    ∀ e : Option Err, (Stop t e).reason = e := by
  refine ⟨?_, fun _ => rfl⟩
  revert hops
  induction ops generalizing t with
  | nil => intro _; rfl
  | cons op rest ih =>
      intro hops
      have hrest : ∀ o ∈ rest, o.isStop = false :=
        fun o ho => hops o (List.mem_cons_of_mem op ho)
      cases op with
      | observe pc opcode gas cost scope rData depth e =>
          have h3 : run t (TraceOp.observe pc opcode gas cost scope rData depth e :: rest) =
              run (OnOpcode t pc opcode gas cost scope rData depth e) rest := rfl
          rw [h3, ih (OnOpcode t pc opcode gas cost scope rData depth e) hrest,
            OnOpcode_reason]
      | stop e =>
          have := hops (TraceOp.stop e) (List.mem_cons_self _ _)
          simp [TraceOp.isStop] at this

/-- C9 witness: a stopped state with reason A keeps reason A across a
concrete observe-only suffix containing a log-family instruction. -/
theorem C9_reason_immutable_under_observe_witness :
    (run (Stop t0 (some "A"))
        [TraceOp.observe 0 0xa1 0 0 scope0 [] 0 none]).reason =
      (Stop t0 (some "A")).reason ∧
    ∀ e : Option Err, (Stop (Stop t0 (some "A")) e).reason = e :=
  C9_reason_immutable_under_observe (Stop t0 (some "A"))
    [TraceOp.observe 0 0xa1 0 0 scope0 [] 0 none] (by decide)

/-- C3: for every memory buffer and integer offset and size, when both
are nonnegative the extraction succeeds with a result of length exactly
size whose positions inside the buffer are copied verbatim and whose
positions beyond the buffer's length are zero; when offset or size is
negative the extraction always fails with the range error, regardless of
the buffer contents. -/
theorem C3_extract_padded (m : List Nat) (offset size : Int) :
    (0 ≤ offset → 0 ≤ size →
      ∃ r, GetMemoryCopyPadded m offset size = Except.ok r ∧
        r.length = size.toNat ∧
        (∀ i : Nat, i < size.toNat → offset.toNat + i < m.length →
          r.getD i 0 = m.getD (offset.toNat + i) 0) ∧
        (∀ i : Nat, i < size.toNat → m.length ≤ offset.toNat + i →
          r.getD i 0 = 0)) ∧
    (offset < 0 ∨ size < 0 →
      GetMemoryCopyPadded m offset size =
        Except.error "offset or size must not be negative") := by
  constructor
  · intro h1 h2
    refine ⟨(List.range size.toNat).map fun i => m.getD (offset.toNat + i) 0,
      ?_, by simp, ?_, ?_⟩
    · unfold GetMemoryCopyPadded
      rw [if_neg (by omega)]
    · intro i hi _
      exact range_map_getD (fun i => m.getD (offset.toNat + i) 0) size.toNat i hi
    · intro i hi hout
      rw [range_map_getD (fun i => m.getD (offset.toNat + i) 0) size.toNat i hi]
      exact List.getD_eq_default m 0 hout
  · exact GetMemoryCopyPadded_neg m offset size

/-- C3 witness: extraction at offset 0 and size 64 from the one-byte
buffer 0x42 succeeds with the padded contract instantiated, and
extraction at offset -1 fails with the range error. -/
theorem C3_extract_padded_witness :
    (∃ r, GetMemoryCopyPadded [0x42] 0 64 = Except.ok r ∧
        r.length = (64 : Int).toNat ∧
        (∀ i : Nat, i < (64 : Int).toNat → (0 : Int).toNat + i < [(0x42 : Nat)].length →
          r.getD i 0 = [(0x42 : Nat)].getD ((0 : Int).toNat + i) 0) ∧
        (∀ i : Nat, i < (64 : Int).toNat → [(0x42 : Nat)].length ≤ (0 : Int).toNat + i →
          r.getD i 0 = 0)) ∧
    GetMemoryCopyPadded [0x42] (-1) 64 =
      Except.error "offset or size must not be negative" :=
  ⟨(C3_extract_padded [0x42] 0 64).1 (by decide) (by decide),
    (C3_extract_padded [0x42] (-1) 64).2 (Or.inl (by decide))⟩

/-- C4: for every successfully extracted byte sequence d, the appended
event's data field is the hex chunking of d, whose length is exactly the
ceiling of the length of d divided by 32, and whose i-th entry is the
0x-prefixed lowercase hex encoding of bytes 32i up to min(32(i+1), size)
of d, the final shorter chunk being encoded directly. -/
theorem C4_data_chunking (t : prestateTracer) (pc opc gas cost : Nat)
    (scope : OpContext) (rData : List Nat) (depth : Int) (e : Option Err)
    (h1 : 0xa0 < opc) (h2 : opc ≤ 0xa4) (d : List Nat)
    (hx : GetMemoryCopyPadded scope.memoryData (toInt64 (fromTop scope 1))
        (toInt64 (fromTop scope 2)) = Except.ok d) :
    (OnOpcode t pc opc gas cost scope rData depth e).pre =
      t.pre ++ [{ caller := scope.address, topics0 := fromTop scope 3,
                  data := chunkLoop d }] ∧
    (chunkLoop d).length = (d.length + 31) / 32 ∧
    ∀ i : Nat, i < (chunkLoop d).length →
      (chunkLoop d).getD i "" = "0x" ++ hexEncodeToString ((d.drop (32 * i)).take 32) := by
  refine ⟨?_, chunkLoop_length d, fun i hi => chunkLoop_getD d i hi⟩
  rw [OnOpcode_logfam t pc opc gas cost scope rData depth e h1 h2,
    logBranch_ok t scope d hx]
  rfl

/-- C4 witness: a size-33 extraction (33 zero bytes) yields exactly 2 hex
chunks, with each chunk given by the stated slicing. -/
theorem C4_data_chunking_witness :
    (OnOpcode t0 0 0xa1 0 0 scope33 [] 0 none).pre =
      t0.pre ++ [{ caller := scope33.address, topics0 := fromTop scope33 3,
                   data := chunkLoop (List.replicate 33 0) }] ∧
    (chunkLoop (List.replicate 33 0)).length = 2 ∧
    ∀ i : Nat, i < (chunkLoop (List.replicate 33 0)).length →
      (chunkLoop (List.replicate 33 0)).getD i "" =
        "0x" ++ hexEncodeToString (((List.replicate 33 0).drop (32 * i)).take 32) :=
  C4_data_chunking t0 0 0xa1 0 0 scope33 [] 0 none (by decide) (by decide)
    (List.replicate 33 0) rfl

/-- C7: the failed flag is monotonic: from any state with isFail true,
any sequence of observe and stop operations leaves isFail true; and a
fault does not suppress later capture: from such a state, a log-family
instruction with a successful extraction still appends its event (and
keeps isFail true). -/
theorem C7_isFail_monotonic (t : prestateTracer) (ops : List TraceOp)
    (pc opc gas cost : Nat) (scope : OpContext) (rData : List Nat)
    (depth : Int) (e : Option Err)
    (h : t.isFail = true) (h1 : 0xa0 < opc) (h2 : opc ≤ 0xa4) (d : List Nat)
    (hx : GetMemoryCopyPadded scope.memoryData (toInt64 (fromTop scope 1))
        (toInt64 (fromTop scope 2)) = Except.ok d) :
    (run t ops).isFail = true ∧
    (OnOpcode t pc opc gas cost scope rData depth e).isFail = true ∧
    (OnOpcode t pc opc gas cost scope rData depth e).pre =
      t.pre ++ [{ caller := scope.address, topics0 := fromTop scope 3,
                  data := chunkLoop d }] := by
  refine ⟨run_isFail_mono t ops h,
    OnOpcode_isFail_mono t pc opc gas cost scope rData depth e h, ?_⟩
  rw [OnOpcode_logfam t pc opc gas cost scope rData depth e h1 h2,
    logBranch_ok t scope d hx]
  rfl

/-- C7 witness: from a concrete faulted state, a stop followed by a fault
observation leaves isFail true, and a log-family instruction on scope0
still appends its event. -/
theorem C7_isFail_monotonic_witness :
    (run tFail [TraceOp.stop (some "halt"),
        TraceOp.observe 0 0xfd 0 0 scope0 [] 0 none]).isFail = true ∧
    (OnOpcode tFail 0 0xa1 0 0 scope0 [] 0 none).isFail = true ∧
    (OnOpcode tFail 0 0xa1 0 0 scope0 [] 0 none).pre =
      tFail.pre ++ [{ caller := scope0.address, topics0 := fromTop scope0 3,
                      data := chunkLoop [1, 2] }] :=
  C7_isFail_monotonic tFail
    [TraceOp.stop (some "halt"), TraceOp.observe 0 0xfd 0 0 scope0 [] 0 none]
    0 0xa1 0 0 scope0 [] 0 none rfl (by decide) (by decide) [1, 2] rfl

/-- C10: for every observed log-family instruction the 256-bit offset and
size operands are reduced to their low 64 bits and reinterpreted as
signed 64-bit integers (each cast value depends only on the low 64 bits
and lies in the signed 64-bit range); when the low 64 bits of either
operand have bit 63 set, the extractor receives a negative argument and
the instruction's event is dropped: the state is returned unchanged. -/
theorem C10_signed_truncation (t : prestateTracer) (pc opc gas cost : Nat)
    (scope : OpContext) (rData : List Nat) (depth : Int) (e : Option Err)
    (h1 : 0xa0 < opc) (h2 : opc ≤ 0xa4)
    (hbit : 2 ^ 63 ≤ fromTop scope 1 % 2 ^ 64 ∨
      2 ^ 63 ≤ fromTop scope 2 % 2 ^ 64) :
    (toInt64 (fromTop scope 1) = toInt64 (fromTop scope 1 % 2 ^ 64) ∧
      -(2 : Int) ^ 63 ≤ toInt64 (fromTop scope 1) ∧
      toInt64 (fromTop scope 1) < 2 ^ 63 ∧
      toInt64 (fromTop scope 2) = toInt64 (fromTop scope 2 % 2 ^ 64) ∧
      -(2 : Int) ^ 63 ≤ toInt64 (fromTop scope 2) ∧
      toInt64 (fromTop scope 2) < 2 ^ 63) ∧
    (toInt64 (fromTop scope 1) < 0 ∨ toInt64 (fromTop scope 2) < 0) ∧
    OnOpcode t pc opc gas cost scope rData depth e = t := by
  have hneg : toInt64 (fromTop scope 1) < 0 ∨ toInt64 (fromTop scope 2) < 0 := by
    cases hbit with
    | inl hb => exact Or.inl (toInt64_neg_of_bit63 (fromTop scope 1) hb)
    | inr hb => exact Or.inr (toInt64_neg_of_bit63 (fromTop scope 2) hb)
  refine ⟨⟨toInt64_low64 (fromTop scope 1), toInt64_lower (fromTop scope 1),
    toInt64_upper (fromTop scope 1), toInt64_low64 (fromTop scope 2),
    toInt64_lower (fromTop scope 2), toInt64_upper (fromTop scope 2)⟩, hneg, ?_⟩
  rw [OnOpcode_logfam t pc opc gas cost scope rData depth e h1 h2]
  exact logBranch_error t scope "offset or size must not be negative"
    (GetMemoryCopyPadded_neg scope.memoryData (toInt64 (fromTop scope 1))
      (toInt64 (fromTop scope 2)) hneg)

/-- C10 witness: on the concrete scopeNeg fixture, whose top-of-stack
word is 2 to the 63rd power, the cast offset is negative and the
observation drops the event, leaving the state unchanged. -/
theorem C10_signed_truncation_witness :
    (toInt64 (fromTop scopeNeg 1) = toInt64 (fromTop scopeNeg 1 % 2 ^ 64) ∧
      -(2 : Int) ^ 63 ≤ toInt64 (fromTop scopeNeg 1) ∧
      toInt64 (fromTop scopeNeg 1) < 2 ^ 63 ∧
      toInt64 (fromTop scopeNeg 2) = toInt64 (fromTop scopeNeg 2 % 2 ^ 64) ∧
      -(2 : Int) ^ 63 ≤ toInt64 (fromTop scopeNeg 2) ∧
      toInt64 (fromTop scopeNeg 2) < 2 ^ 63) ∧
    (toInt64 (fromTop scopeNeg 1) < 0 ∨ toInt64 (fromTop scopeNeg 2) < 0) ∧
    OnOpcode t0 0 0xa3 0 0 scopeNeg [] 0 none = t0 :=
  C10_signed_truncation t0 0 0xa3 0 0 scopeNeg [] 0 none (by decide) (by decide)
    (Or.inl (by decide))

end PrestateTracer
